import Mathlib

/-!
Shallow embedding of the gameplay logic of the `bevy_tutorial` repository.

The repository contains two variants of the pig-spawning game:

* `src/pigs.rs` (the refined plugin variant): pigs are spawned as children of a
  singleton `PigParent` container entity, with a 1.0-second one-shot timer, and
  `pig_lifetime` removes the child link before despawning the pig.
* `src/main.rs` (the initial variant): pigs are spawned free-standing with a
  2.0-second one-shot timer and despawned directly.

Numbers are modelled with `ℚ`: every money operation in the source
(100.0 − 10.0, + 20.0) is exact in `f32`, and timer arithmetic is plain
addition and comparison, so rationals are a faithful carrier for these values.
A Bevy `panic!` (from `Query::single()` on a missing singleton) is modelled by
returning `none`; normal completion returns `some` of the updated state.
Bevy `Commands` are applied at the end of the emitting system, and systems run
in the order the app registers them: movement, spawner, lifetime sweep.
-/

/-- Bevy `Timer` restricted to `TimerMode::Once`, the only mode the game uses.
`elapsed`/`duration` mirror the timer's stopwatch and configured duration;
`finished` is the latched one-shot flag. -/
structure Timer where
  elapsed : ℚ
  duration : ℚ
  finished : Bool
deriving Repr, DecidableEq

/-- `Timer::from_seconds(d, TimerMode::Once)`. -/
def Timer.from_seconds (d : ℚ) : Timer :=
  { elapsed := 0, duration := d, finished := false }

/-- `Timer::tick(delta)` for a `TimerMode::Once` timer: once finished, further
ticks do nothing; otherwise elapsed time advances, clamped at the duration,
and the `finished` flag latches when the duration is reached. -/
def Timer.tick (t : Timer) (delta : ℚ) : Timer :=
  if t.finished then t
  else if t.duration ≤ t.elapsed + delta then
    { elapsed := t.duration, duration := t.duration, finished := true }
  else
    { elapsed := t.elapsed + delta, duration := t.duration, finished := false }

/-- Per-frame keyboard state: the four movement keys (`pressed`) and the
edge-detected `just_pressed` signal for the spawn trigger (spacebar). -/
structure KeyInput where
  w : Bool
  s : Bool
  a : Bool
  d : Bool
  space_just_pressed : Bool
deriving Repr, DecidableEq

/-- The body of `character_movement` for one queried `(Transform, Player)`
pair: each pressed movement key independently shifts the translation by
`player.speed * time.delta_seconds()` along its axis. -/
def character_movement (pos : ℚ × ℚ) (speed : ℚ) (input : KeyInput)
    (delta : ℚ) : ℚ × ℚ :=
  let movement_speed := speed * delta
  let y1 := if input.w then pos.2 + movement_speed else pos.2
  let y2 := if input.s then y1 - movement_speed else y1
  let x1 := if input.a then pos.1 - movement_speed else pos.1
  let x2 := if input.d then x1 + movement_speed else x1
  (x2, y2)

/-- A pig entity of the `src/pigs.rs` variant: its Bevy `Entity` id, the
translation of its `Transform`, and its `Pig` component's `lifetime` timer. -/
structure Pig where
  id : Nat
  translation : ℚ × ℚ
  lifetime : Timer
deriving Repr, DecidableEq

/-- `pig.lifetime.tick(time.delta())` applied to a whole pig. -/
def Pig.tick (p : Pig) (delta : ℚ) : Pig :=
  { p with lifetime := p.lifetime.tick delta }

/-- World state of the `src/pigs.rs` variant, restricted to what the gameplay
systems read and write: the `Money` resource, the singleton player's
`Transform` translation and `Player.speed` (`none` models an absent player
entity), presence of the singleton `PigParent`, the parent's list of child
entity ids, the live pigs, and the next fresh entity id. -/
structure GameState where
  money : ℚ
  playerPos : Option (ℚ × ℚ)
  playerSpeed : ℚ
  parentExists : Bool
  children : List Nat
  pigs : List Pig
  nextId : Nat
deriving Repr, DecidableEq

/-- The `character_movement` system: applies the movement delta to the player
entity if one exists; with no matching entity the query loop simply runs zero
times. -/
def character_movement_sys (s : GameState) (input : KeyInput)
    (delta : ℚ) : GameState :=
  { s with
    playerPos := s.playerPos.map
      (fun p => character_movement p s.playerSpeed input delta) }

/-- The `spawn_pig` system of `src/pigs.rs`: return immediately unless the
spacebar was just pressed; then `player.single()` and `parent.single()`
(panic, i.e. `none`, if either singleton is absent); then, if the balance is
at least 10, debit 10 and spawn one pig at the player's translation with a
1-second one-shot timer as a child of the parent, otherwise do nothing. -/
def spawn_pig (s : GameState) (input : KeyInput) : Option GameState :=
  if !input.space_just_pressed then some s
  else
    match s.playerPos with
    | none => none
    | some player_transform =>
      if !s.parentExists then none
      else if 10 ≤ s.money then
        some { s with
          money := s.money - 10,
          pigs := s.pigs ++
            [{ id := s.nextId, translation := player_transform,
               lifetime := Timer.from_seconds 1 }],
          children := s.children ++ [s.nextId],
          nextId := s.nextId + 1 }
      else some s

/-- The `pig_lifetime` system of `src/pigs.rs`: `parent.single()` first
(panic if the container is absent); then every pig's timer is ticked, and
each pig whose timer is finished credits 20 to the balance, is removed from
the parent's children, and is despawned. -/
def pig_lifetime (s : GameState) (delta : ℚ) : Option GameState :=
  if !s.parentExists then none
  else
    let ticked := s.pigs.map (fun p => p.tick delta)
    let expired := ticked.filter (fun p => p.lifetime.finished)
    some { s with
      money := s.money + 20 * (expired.length : ℚ),
      pigs := ticked.filter (fun p => !p.lifetime.finished),
      children := s.children.filter
        (fun cid => !(expired.any (fun p => p.id == cid))) }

/-- One frame's external context: the keyboard state and
`time.delta_seconds()`. -/
structure FrameInput where
  keys : KeyInput
  delta : ℚ
deriving Repr, DecidableEq

/-- One `Update` tick: the registered systems run over the shared world in
order (`character_movement`, `spawn_pig`, `pig_lifetime`); a panic anywhere
aborts the process. -/
def frame (s : GameState) (i : FrameInput) : Option GameState :=
  (spawn_pig (character_movement_sys s i.keys i.delta) i.keys).bind
    (fun s2 => pig_lifetime s2 i.delta)

/-- Iterating the frame loop over a list of per-frame inputs. -/
def runFrames (s : GameState) : List FrameInput → Option GameState
  | [] => some s
  | i :: rest => (frame s i).bind (fun s2 => runFrames s2 rest)

/-- `impl Default for Money { fn default() -> Self { Money(100.0) } }`. -/
def Money.default : ℚ := 100

/-- The world after the `Startup` systems: balance 100, one player at the
default translation with speed 100, the `PigParent` spawned with no children,
no pigs. -/
def initialState : GameState :=
  { money := Money.default
    playerPos := some (0, 0)
    playerSpeed := 100
    parentExists := true
    children := []
    pigs := []
    nextId := 0 }

/-- A pig entity of the `src/main.rs` variant (no parent container, no id
bookkeeping needed by any claim about that variant). -/
structure PigM where
  translation : ℚ × ℚ
  lifetime : Timer
deriving Repr, DecidableEq

/-- The `spawn_pig` system of `src/main.rs`: same shape as the plugin variant
but with no container entity and a 2-second pig timer. -/
def spawn_pig_main (input : KeyInput) (playerPos : Option (ℚ × ℚ))
    (money : ℚ) (pigs : List PigM) : Option (ℚ × List PigM) :=
  if !input.space_just_pressed then some (money, pigs)
  else
    match playerPos with
    | none => none
    | some player_transform =>
      if 10 ≤ money then
        some (money - 10, pigs ++
          [{ translation := player_transform,
             lifetime := Timer.from_seconds 2 }])
      else some (money, pigs)

/-- The rendered status string of `update_money_ui`. The format literal in
`src/ui.rs` is byte-for-byte `"Money: Â£{:?}"` — its pound sign is
double-encoded (bytes `C3 82 C2 A3`, i.e. `Â£`), unlike the correctly
encoded `£` in the log lines of the other two files — and the embedding
keeps that literal exactly. -/
def formatMoney (money : ℚ) : String :=
  "Money: Â£" ++ toString money

/-- The `update_money_ui` system: every `Text` tagged `MoneyText` (modelled by
its single section's string, as built by `spawn_game_ui`) is overwritten with
the rendered balance; the `Money` resource is only read. -/
def update_money_ui (texts : List String) (money : ℚ) :
    List String × ℚ :=
  (texts.map (fun _ => formatMoney money), money)

/-! ## Claim theorems -/

/-- C1: on a frame where the spawn trigger edge fires (and the singletons the
spawner queries exist), the spawn succeeds — one new pig appended and the
parent's children extended — if and only if the pre-spawn balance is at least
10, and on success the post-spawn balance is exactly the pre-spawn balance
minus 10, debited once. The same holds for the `src/main.rs` variant. -/
theorem spawn_pig_debit_iff (s : GameState) (input : KeyInput) (ppos : ℚ × ℚ)
    (hspace : input.space_just_pressed = true)
    (hplayer : s.playerPos = some ppos)
    (hparent : s.parentExists = true) :
    ((∃ s', spawn_pig s input = some s' ∧
        s'.money = s.money - 10 ∧
        s'.pigs = s.pigs ++
          [{ id := s.nextId, translation := ppos,
             lifetime := Timer.from_seconds 1 }] ∧
        s'.children = s.children ++ [s.nextId]) ↔ 10 ≤ s.money) ∧
    (s.money < 10 → spawn_pig s input = some s) ∧
    (∀ money : ℚ, ∀ pigs : List PigM,
      ((∃ money' pigs', spawn_pig_main input (some ppos) money pigs =
          some (money', pigs') ∧ money' = money - 10 ∧
          pigs' = pigs ++
            [{ translation := ppos, lifetime := Timer.from_seconds 2 }]) ↔
        10 ≤ money)) := by
  refine ⟨?_, ?_, ?_⟩
  · constructor
    · rintro ⟨s', hs', hmoney, -⟩
      by_contra hlt
      push_neg at hlt
      simp only [spawn_pig, hspace, hplayer, hparent, Bool.not_true,
        Bool.false_eq_true, if_false, not_le.mpr hlt, if_neg (not_le.mpr hlt),
        Option.some.injEq] at hs'
      subst hs'
      have := hmoney
      linarith
    · intro hge
      refine ⟨{ s with
          money := s.money - 10,
          pigs := s.pigs ++
            [{ id := s.nextId, translation := ppos,
               lifetime := Timer.from_seconds 1 }],
          children := s.children ++ [s.nextId],
          nextId := s.nextId + 1 }, ?_, rfl, rfl, rfl⟩
      simp [spawn_pig, hspace, hplayer, hparent, hge]
  · intro hlt
    simp [spawn_pig, hspace, hplayer, hparent, not_le.mpr hlt]
  · intro money pigs
    constructor
    · rintro ⟨m', p', hsp, hm, -⟩
      by_contra hlt
      push_neg at hlt
      simp only [spawn_pig_main, hspace, Bool.not_true, Bool.false_eq_true,
        if_false, if_neg (not_le.mpr hlt), Option.some.injEq,
        Prod.mk.injEq] at hsp
      obtain ⟨hm', -⟩ := hsp
      rw [← hm'] at hm
      linarith
    · intro hge
      refine ⟨money - 10, pigs ++
        [{ translation := ppos, lifetime := Timer.from_seconds 2 }],
        ?_, rfl, rfl⟩
      simp [spawn_pig_main, hspace, hge]

/-- C1 witness: a concrete successful spawn at balance 100. -/
theorem spawn_pig_debit_iff_witness :
    ((∃ s', spawn_pig initialState
        { w := false, s := false, a := false, d := false,
          space_just_pressed := true } = some s' ∧
        s'.money = initialState.money - 10 ∧
        s'.pigs = initialState.pigs ++
          [{ id := initialState.nextId, translation := (0, 0),
             lifetime := Timer.from_seconds 1 }] ∧
        s'.children = initialState.children ++ [initialState.nextId]) ↔
      10 ≤ initialState.money) ∧
    (initialState.money < 10 →
      spawn_pig initialState
        { w := false, s := false, a := false, d := false,
          space_just_pressed := true } = some initialState) ∧
    (∀ money : ℚ, ∀ pigs : List PigM,
      ((∃ money' pigs', spawn_pig_main
          { w := false, s := false, a := false, d := false,
            space_just_pressed := true } (some (0, 0)) money pigs =
          some (money', pigs') ∧ money' = money - 10 ∧
          pigs' = pigs ++
            [{ translation := (0, 0), lifetime := Timer.from_seconds 2 }]) ↔
        10 ≤ money)) :=
  spawn_pig_debit_iff initialState
    { w := false, s := false, a := false, d := false,
      space_just_pressed := true } (0, 0) rfl rfl rfl

/-- C6: when the spawn trigger edge fires with balance below 10 (and the
queried singletons exist), the spawner is a silent no-op: it returns the
world exactly as it was, so the balance, the player position, the pig set and
the container membership are all unchanged and no entity is created. The
`src/main.rs` variant likewise returns its inputs unchanged. -/
theorem spawn_pig_insufficient_noop (s : GameState) (input : KeyInput)
    (ppos : ℚ × ℚ)
    (hspace : input.space_just_pressed = true)
    (hplayer : s.playerPos = some ppos)
    (hparent : s.parentExists = true)
    (hmoney : s.money < 10) :
    spawn_pig s input = some s ∧
    (∀ money : ℚ, ∀ pigs : List PigM, money < 10 →
      spawn_pig_main input (some ppos) money pigs = some (money, pigs)) := by
  constructor
  · simp [spawn_pig, hspace, hplayer, hparent, not_le.mpr hmoney]
  · intro money pigs hlt
    simp [spawn_pig_main, hspace, not_le.mpr hlt]

/-- C6 witness: a concrete spawn attempt at balance 5 changes nothing. -/
theorem spawn_pig_insufficient_noop_witness :
    spawn_pig { initialState with money := 5 }
      { w := false, s := false, a := false, d := false,
        space_just_pressed := true } =
      some { initialState with money := 5 } ∧
    (∀ money : ℚ, ∀ pigs : List PigM, money < 10 →
      spawn_pig_main
        { w := false, s := false, a := false, d := false,
          space_just_pressed := true } (some (0, 0)) money pigs =
        some (money, pigs)) :=
  spawn_pig_insufficient_noop { initialState with money := 5 }
    { w := false, s := false, a := false, d := false,
      space_just_pressed := true } (0, 0) rfl rfl rfl (by norm_num)

/-- C7: in every frame the player's position moves by `speed * delta` along
exactly the axes of the pressed keys, each axis independently (two orthogonal
keys simply add their contributions, un-normalized); with no movement key
pressed the position is returned unchanged. -/
theorem character_movement_axes (pos : ℚ × ℚ) (speed delta : ℚ)
    (input : KeyInput) :
    character_movement pos speed input delta =
      (pos.1 - (if input.a then speed * delta else 0) +
        (if input.d then speed * delta else 0),
       pos.2 + (if input.w then speed * delta else 0) -
        (if input.s then speed * delta else 0)) ∧
    (∀ sp : Bool,
      character_movement pos speed
        { w := false, s := false, a := false, d := false,
          space_just_pressed := sp } delta = pos) := by
  constructor
  · obtain ⟨w, sk, a, d, sp⟩ := input
    cases w <;> cases sk <;> cases a <;> cases d <;>
      simp [character_movement]
  · intro sp
    simp [character_movement]

/-- C9 counterexample: the claim fixes the displayed format as
`"Money: £<value>"`, but the format literal in `src/ui.rs` carries a
double-encoded pound sign, so at balance 90 with the single startup text the
program renders `"Money: Â£90"`, not `"Money: £90"`. -/
theorem update_money_ui_not_pound_format :
    ¬ ∀ t ∈ (update_money_ui ["Money!"] 90).1,
      t = "Money: £" ++ toString (90 : ℚ) := by
  intro h
  have hmem : formatMoney 90 ∈ (update_money_ui ["Money!"] 90).1 := by
    simp [update_money_ui]
  have := h (formatMoney 90) hmem
  rw [formatMoney] at this
  revert this
  decide

/-- C9 amended: every frame, `update_money_ui` overwrites each status text
with the rendered balance string `"Money: Â£<value>"` (the source's format
literal has a double-encoded pound sign), it leaves the balance itself
untouched (pure read), and it is a total function of any rational balance. -/
theorem update_money_ui_overwrites (texts : List String) (money : ℚ) :
    (update_money_ui texts money).2 = money ∧
    (update_money_ui texts money).1.length = texts.length ∧
    ∀ t ∈ (update_money_ui texts money).1,
      t = "Money: Â£" ++ toString money := by
  refine ⟨rfl, by simp [update_money_ui], ?_⟩
  intro t ht
  simp only [update_money_ui, List.mem_map] at ht
  obtain ⟨-, -, rfl⟩ := ht
  rfl

/-- C9 witness: the status row rendered at a concrete balance. -/
theorem update_money_ui_overwrites_witness :
    (update_money_ui ["Money!"] 90).2 = 90 ∧
    (update_money_ui ["Money!"] 90).1.length = ["Money!"].length ∧
    ∀ t ∈ (update_money_ui ["Money!"] 90).1,
      t = "Money: Â£" ++ toString (90 : ℚ) :=
  update_money_ui_overwrites ["Money!"] 90

/-- C10: on a frame where the spawn trigger edge does not fire, `spawn_pig`
returns before its singleton queries: the world is returned unchanged and
there is no panic, even when the player or the container is absent. The
`src/main.rs` variant behaves the same. -/
theorem spawn_pig_no_trigger_early_return (s : GameState) (input : KeyInput)
    (hspace : input.space_just_pressed = false) :
    spawn_pig s input = some s ∧
    (∀ playerPos money pigs,
      spawn_pig_main input playerPos money pigs = some (money, pigs)) := by
  constructor
  · simp [spawn_pig, hspace]
  · intro playerPos money pigs
    simp [spawn_pig_main, hspace]

/-- C10 witness: with no trigger edge, a world missing both the player and
the container passes through the spawner untouched and without a crash. -/
theorem spawn_pig_no_trigger_early_return_witness :
    spawn_pig
      { money := 100, playerPos := none, playerSpeed := 100,
        parentExists := false, children := [], pigs := [], nextId := 0 }
      { w := false, s := false, a := false, d := false,
        space_just_pressed := false } =
      some { money := 100, playerPos := none, playerSpeed := 100,
             parentExists := false, children := [], pigs := [],
             nextId := 0 } ∧
    (∀ playerPos money pigs,
      spawn_pig_main
        { w := false, s := false, a := false, d := false,
          space_just_pressed := false } playerPos money pigs =
        some (money, pigs)) :=
  spawn_pig_no_trigger_early_return _ _ rfl

/-- C5 counterexample: the claim as stated says a missing singleton Player
crashes the process whenever the Lifetime/Expiry Sweep runs; but the sweep
never queries the player, so at this concrete world (player absent, container
present) `pig_lifetime` completes normally instead of crashing. -/
theorem pig_lifetime_runs_without_player :
    pig_lifetime
      { money := 100, playerPos := none, playerSpeed := 100,
        parentExists := true, children := [], pigs := [], nextId := 0 } 1 ≠
      none := by
  decide

/-- C5 amended: a missing Player or missing Container is a fatal panic when
the Spawner actually reaches its singleton queries (i.e. on a trigger-edge
frame), and a missing Container is a fatal panic whenever the Sweep runs; a
missing Player does not crash the Sweep, and the Spawner without a trigger
edge never reaches the queries. The `src/main.rs` spawner likewise panics on
a trigger-edge frame with no Player. -/
theorem missing_singleton_panics (s : GameState) (input : KeyInput)
    (delta : ℚ) :
    (input.space_just_pressed = true →
      s.playerPos = none ∨ s.parentExists = false →
      spawn_pig s input = none) ∧
    (s.parentExists = false → pig_lifetime s delta = none) ∧
    (input.space_just_pressed = true →
      ∀ money : ℚ, ∀ pigs : List PigM,
        spawn_pig_main input none money pigs = none) := by
  refine ⟨?_, ?_, ?_⟩
  · intro hspace habs
    rcases habs with hp | hpar
    · simp [spawn_pig, hspace, hp]
    · cases hpp : s.playerPos with
      | none => simp [spawn_pig, hspace, hpp]
      | some ppos => simp [spawn_pig, hspace, hpp, hpar]
  · intro hpar
    simp [pig_lifetime, hpar]
  · intro hspace money pigs
    simp [spawn_pig_main, hspace]

/-- C5 amended witness: concrete panics with the Player absent on a
trigger-edge frame, and with the Container absent at the sweep. -/
theorem missing_singleton_panics_witness :
    (({ w := false, s := false, a := false, d := false,
        space_just_pressed := true } : KeyInput).space_just_pressed = true →
      ({ money := 100, playerPos := none, playerSpeed := 100,
         parentExists := false, children := [], pigs := [],
         nextId := 0 } : GameState).playerPos = none ∨
      ({ money := 100, playerPos := none, playerSpeed := 100,
         parentExists := false, children := [], pigs := [],
         nextId := 0 } : GameState).parentExists = false →
      spawn_pig
        { money := 100, playerPos := none, playerSpeed := 100,
          parentExists := false, children := [], pigs := [], nextId := 0 }
        { w := false, s := false, a := false, d := false,
          space_just_pressed := true } = none) ∧
    (({ money := 100, playerPos := none, playerSpeed := 100,
        parentExists := false, children := [], pigs := [],
        nextId := 0 } : GameState).parentExists = false →
      pig_lifetime
        { money := 100, playerPos := none, playerSpeed := 100,
          parentExists := false, children := [], pigs := [], nextId := 0 }
        1 = none) ∧
    (({ w := false, s := false, a := false, d := false,
        space_just_pressed := true } : KeyInput).space_just_pressed = true →
      ∀ money : ℚ, ∀ pigs : List PigM,
        spawn_pig_main
          { w := false, s := false, a := false, d := false,
            space_just_pressed := true } none money pigs = none) :=
  missing_singleton_panics
    { money := 100, playerPos := none, playerSpeed := 100,
      parentExists := false, children := [], pigs := [], nextId := 0 }
    { w := false, s := false, a := false, d := false,
      space_just_pressed := true } 1

/-- C8: every pig is created at the player's translation at spawn time, with
a fresh `TimerMode::Once` countdown whose fixed duration is 1.0 in the
`src/pigs.rs` configuration and 2.0 in the `src/main.rs` configuration —
both within the 1.0–2.0 range — and a finished once-timer is inert under
further ticks, so it fires exactly once. -/
theorem pig_spawned_at_player_with_once_timer (s : GameState)
    (input : KeyInput) (ppos : ℚ × ℚ)
    (hspace : input.space_just_pressed = true)
    (hplayer : s.playerPos = some ppos)
    (hparent : s.parentExists = true)
    (hmoney : 10 ≤ s.money) :
    (∃ s', spawn_pig s input = some s' ∧
      s'.pigs = s.pigs ++
        [{ id := s.nextId, translation := ppos,
           lifetime := Timer.from_seconds 1 }]) ∧
    (∀ money : ℚ, ∀ pigs : List PigM, 10 ≤ money →
      ∃ money', spawn_pig_main input (some ppos) money pigs =
        some (money', pigs ++
          [{ translation := ppos, lifetime := Timer.from_seconds 2 }])) ∧
    ((Timer.from_seconds 1).elapsed = 0 ∧
      (Timer.from_seconds 1).finished = false ∧
      1 ≤ (Timer.from_seconds 1).duration ∧
      (Timer.from_seconds 1).duration ≤ 2) ∧
    ((Timer.from_seconds 2).elapsed = 0 ∧
      (Timer.from_seconds 2).finished = false ∧
      1 ≤ (Timer.from_seconds 2).duration ∧
      (Timer.from_seconds 2).duration ≤ 2) ∧
    (∀ t : Timer, ∀ d : ℚ, t.finished = true → t.tick d = t) := by
  refine ⟨?_, ?_, ?_, ?_, ?_⟩
  · refine ⟨{ s with
        money := s.money - 10,
        pigs := s.pigs ++
          [{ id := s.nextId, translation := ppos,
             lifetime := Timer.from_seconds 1 }],
        children := s.children ++ [s.nextId],
        nextId := s.nextId + 1 }, ?_, rfl⟩
    simp [spawn_pig, hspace, hplayer, hparent, hmoney]
  · intro money pigs hge
    refine ⟨money - 10, ?_⟩
    simp [spawn_pig_main, hspace, hge]
  · refine ⟨rfl, rfl, by norm_num [Timer.from_seconds], by norm_num [Timer.from_seconds]⟩
  · refine ⟨rfl, rfl, by norm_num [Timer.from_seconds], by norm_num [Timer.from_seconds]⟩
  · intro t d hfin
    simp [Timer.tick, hfin]

/-- C8 witness: a concrete spawn from the initial world. -/
theorem pig_spawned_at_player_with_once_timer_witness :
    (∃ s', spawn_pig initialState
        { w := false, s := false, a := false, d := false,
          space_just_pressed := true } = some s' ∧
      s'.pigs = initialState.pigs ++
        [{ id := initialState.nextId, translation := (0, 0),
           lifetime := Timer.from_seconds 1 }]) ∧
    (∀ money : ℚ, ∀ pigs : List PigM, 10 ≤ money →
      ∃ money', spawn_pig_main
          { w := false, s := false, a := false, d := false,
            space_just_pressed := true } (some (0, 0)) money pigs =
        some (money', pigs ++
          [{ translation := (0, 0), lifetime := Timer.from_seconds 2 }])) ∧
    ((Timer.from_seconds 1).elapsed = 0 ∧
      (Timer.from_seconds 1).finished = false ∧
      1 ≤ (Timer.from_seconds 1).duration ∧
      (Timer.from_seconds 1).duration ≤ 2) ∧
    ((Timer.from_seconds 2).elapsed = 0 ∧
      (Timer.from_seconds 2).finished = false ∧
      1 ≤ (Timer.from_seconds 2).duration ∧
      (Timer.from_seconds 2).duration ≤ 2) ∧
    (∀ t : Timer, ∀ d : ℚ, t.finished = true → t.tick d = t) :=
  pig_spawned_at_player_with_once_timer initialState
    { w := false, s := false, a := false, d := false,
      space_just_pressed := true } (0, 0) rfl rfl rfl (by norm_num [initialState, Money.default])

lemma spawn_pig_money_nonneg (s : GameState) (input : KeyInput)
    (s' : GameState) (h0 : 0 ≤ s.money) (h : spawn_pig s input = some s') :
    0 ≤ s'.money := by
  unfold spawn_pig at h
  split at h
  · simp only [Option.some.injEq] at h
    subst h; exact h0
  · split at h
    · exact Option.noConfusion h
    · split at h
      · exact Option.noConfusion h
      · split at h
        · rename_i hge
          simp only [Option.some.injEq] at h
          subst h
          dsimp only
          linarith
        · simp only [Option.some.injEq] at h
          subst h; exact h0

lemma pig_lifetime_money_nonneg (s : GameState) (delta : ℚ)
    (s' : GameState) (h0 : 0 ≤ s.money) (h : pig_lifetime s delta = some s') :
    0 ≤ s'.money := by
  unfold pig_lifetime at h
  split at h
  · exact Option.noConfusion h
  · simp only [Option.some.injEq] at h
    subst h
    dsimp only
    have hc : (0 : ℚ) ≤ 20 * ((((s.pigs.map (fun p => p.tick delta)).filter
        (fun p => p.lifetime.finished)).length : ℕ) : ℚ) := by positivity
    linarith

lemma frame_money_nonneg (s : GameState) (i : FrameInput) (s' : GameState)
    (h0 : 0 ≤ s.money) (h : frame s i = some s') : 0 ≤ s'.money := by
  unfold frame at h
  cases hsp : spawn_pig (character_movement_sys s i.keys i.delta) i.keys with
  | none => rw [hsp] at h; exact Option.noConfusion h
  | some s2 =>
    rw [hsp] at h
    simp only [Option.some_bind] at h
    have h1 : 0 ≤ (character_movement_sys s i.keys i.delta).money := h0
    exact pig_lifetime_money_nonneg s2 i.delta s'
      (spawn_pig_money_nonneg (character_movement_sys s i.keys i.delta)
        i.keys s2 h1 hsp) h

lemma runFrames_money_nonneg (inputs : List FrameInput) :
    ∀ s s' : GameState, 0 ≤ s.money → runFrames s inputs = some s' →
      0 ≤ s'.money := by
  induction inputs with
  | nil =>
    intro s s' h0 h
    simp only [runFrames, Option.some.injEq] at h
    subst h; exact h0
  | cons i rest ih =>
    intro s s' h0 h
    unfold runFrames at h
    cases hf : frame s i with
    | none => rw [hf] at h; exact Option.noConfusion h
    | some s2 =>
      rw [hf] at h
      simp only [Option.some_bind] at h
      exact ih s2 s' (frame_money_nonneg s i s2 h0 hf) h

/-- C2: starting from the initial world (balance 100 from `Money::default`),
any sequence of frames that the game completes normally — with arbitrary key
presses and frame deltas, so in particular arbitrary interleavings of spawn
attempts and expiries — leaves the balance non-negative: the spawner checks
the balance before debiting, and the sweep only credits. -/
theorem money_never_negative (inputs : List FrameInput) (s' : GameState)
    (h : runFrames initialState inputs = some s') : 0 ≤ s'.money :=
  runFrames_money_nonneg inputs initialState s'
    (by norm_num [initialState, Money.default]) h

/-- C2 witness: one concrete frame that spawns a pig and immediately expires
it (delta 1 ≥ the 1-second lifetime), ending at balance 110 ≥ 0. -/
theorem money_never_negative_witness :
    0 ≤ ({ money := 110, playerPos := some (0, 0), playerSpeed := 100,
           parentExists := true, children := [], pigs := [],
           nextId := 1 } : GameState).money :=
  money_never_negative
    [{ keys := { w := false, s := false, a := false, d := false,
                 space_just_pressed := true }, delta := 1 }]
    { money := 110, playerPos := some (0, 0), playerSpeed := 100,
      parentExists := true, children := [], pigs := [], nextId := 1 }
    (by norm_num [runFrames, frame, character_movement_sys,
      character_movement, spawn_pig, pig_lifetime, Pig.tick, Timer.tick,
      Timer.from_seconds, initialState, Money.default])

lemma tick_finished_of_expired (p : Pig) (delta : ℚ)
    (hnf : p.lifetime.finished = false)
    (h : p.lifetime.duration ≤ p.lifetime.elapsed + delta) :
    (p.tick delta).lifetime.finished = true := by
  simp [Pig.tick, Timer.tick, hnf, h]

lemma tick_not_finished_of_short (p : Pig) (delta : ℚ)
    (hnf : p.lifetime.finished = false)
    (h : p.lifetime.elapsed + delta < p.lifetime.duration) :
    (p.tick delta).lifetime.finished = false := by
  simp [Pig.tick, Timer.tick, hnf, not_le.mpr h]

lemma expired_not_in_survivors (s : GameState) (delta : ℚ) (p : Pig)
    (hmem : p ∈ s.pigs) (hnodup : (s.pigs.map Pig.id).Nodup)
    (hfin : (p.tick delta).lifetime.finished = true) :
    p.id ∉ ((s.pigs.map (fun q => q.tick delta)).filter
      (fun q => !q.lifetime.finished)).map Pig.id := by
  intro hin
  rw [List.mem_map] at hin
  obtain ⟨q, hq, hqid⟩ := hin
  rw [List.mem_filter] at hq
  obtain ⟨hqt, hqnf⟩ := hq
  rw [List.mem_map] at hqt
  obtain ⟨r, hr, rfl⟩ := hqt
  have hrid : r.id = p.id := hqid
  have hrp : r = p := List.inj_on_of_nodup_map hnodup hr hmem hrid
  subst hrp
  rw [hfin] at hqnf
  simp at hqnf

/-- C3: on any sweep frame, every live pig's timer is advanced, and the sweep
credits exactly 20 per pig whose ticked timer is finished; a live
(not-yet-finished) pig's timer finishes on a frame exactly when its elapsed
time plus that frame's delta first reaches its duration, in which case the
pig is destroyed (absent from the surviving pigs) in that same frame — so
its credit and destruction happen together, once; a pig whose countdown has
not yet reached its duration survives with its timer still unfinished, so
no credit or destruction ever precedes the expiry frame, and a destroyed
pig is not in the pig set any later sweep iterates over. -/
theorem pig_expiry_credit_and_despawn (s : GameState) (delta : ℚ) (p : Pig)
    (hparent : s.parentExists = true)
    (hmem : p ∈ s.pigs)
    (hnf : p.lifetime.finished = false)
    (hnodup : (s.pigs.map Pig.id).Nodup) :
    ∃ s', pig_lifetime s delta = some s' ∧
      s'.money = s.money + 20 *
        (((s.pigs.map (fun q => q.tick delta)).filter
          (fun q => q.lifetime.finished)).length : ℚ) ∧
      s'.pigs = (s.pigs.map (fun q => q.tick delta)).filter
        (fun q => !q.lifetime.finished) ∧
      (p.lifetime.duration ≤ p.lifetime.elapsed + delta →
        (p.tick delta).lifetime.finished = true ∧
        p.id ∉ s'.pigs.map Pig.id) ∧
      (p.lifetime.elapsed + delta < p.lifetime.duration →
        p.tick delta ∈ s'.pigs ∧
        (p.tick delta).lifetime.finished = false) := by
  refine ⟨{ s with
      money := s.money + 20 *
        (((s.pigs.map (fun q => q.tick delta)).filter
          (fun q => q.lifetime.finished)).length : ℚ),
      pigs := (s.pigs.map (fun q => q.tick delta)).filter
        (fun q => !q.lifetime.finished),
      children := s.children.filter (fun cid =>
        !(((s.pigs.map (fun q => q.tick delta)).filter
          (fun q => q.lifetime.finished)).any (fun q => q.id == cid))) },
    ?_, rfl, rfl, ?_, ?_⟩
  · simp [pig_lifetime, hparent]
  · intro hexp
    have hfin := tick_finished_of_expired p delta hnf hexp
    exact ⟨hfin, expired_not_in_survivors s delta p hmem hnodup hfin⟩
  · intro hlt
    have hfin := tick_not_finished_of_short p delta hnf hlt
    constructor
    · show p.tick delta ∈ (s.pigs.map (fun q => q.tick delta)).filter
        (fun q => !q.lifetime.finished)
      exact List.mem_filter.mpr
        ⟨List.mem_map_of_mem _ hmem, by simp [hfin]⟩
    · exact hfin

/-- A concrete one-pig world used to instantiate the sweep theorems: the
world right after the first spawn from the initial state. -/
def demoPig : Pig :=
  { id := 0, translation := (0, 0), lifetime := Timer.from_seconds 1 }

/-- The game state holding exactly `demoPig`, balance 90. -/
def demoState : GameState :=
  { money := 90, playerPos := some (0, 0), playerSpeed := 100,
    parentExists := true, children := [0], pigs := [demoPig], nextId := 1 }

/-- C3 witness: the sweep on the one-pig world with delta 1. -/
theorem pig_expiry_credit_and_despawn_witness :
    ∃ s', pig_lifetime demoState 1 = some s' ∧
      s'.money = demoState.money + 20 *
        (((demoState.pigs.map (fun q => q.tick 1)).filter
          (fun q => q.lifetime.finished)).length : ℚ) ∧
      s'.pigs = (demoState.pigs.map (fun q => q.tick 1)).filter
        (fun q => !q.lifetime.finished) ∧
      (demoPig.lifetime.duration ≤ demoPig.lifetime.elapsed + 1 →
        (demoPig.tick 1).lifetime.finished = true ∧
        demoPig.id ∉ s'.pigs.map Pig.id) ∧
      (demoPig.lifetime.elapsed + 1 < demoPig.lifetime.duration →
        demoPig.tick 1 ∈ s'.pigs ∧
        (demoPig.tick 1).lifetime.finished = false) :=
  pig_expiry_credit_and_despawn demoState 1 demoPig rfl
    (by simp [demoState]) rfl (by simp [demoState, demoPig])

/-- An entity id that is dead for the world: not a live pig, not referenced
by the container, and strictly below the fresh-id counter, so it can never
be reused. -/
def entityDead (eid : Nat) (s : GameState) : Prop :=
  eid ∉ s.pigs.map Pig.id ∧ eid ∉ s.children ∧ eid < s.nextId

lemma entityDead_spawn (eid : Nat) (s : GameState) (input : KeyInput)
    (s' : GameState) (hd : entityDead eid s) (h : spawn_pig s input = some s') :
    entityDead eid s' := by
  obtain ⟨hp, hc, hn⟩ := hd
  unfold spawn_pig at h
  split at h
  · simp only [Option.some.injEq] at h
    subst h; exact ⟨hp, hc, hn⟩
  · split at h
    · exact Option.noConfusion h
    · split at h
      · exact Option.noConfusion h
      · split at h
        · simp only [Option.some.injEq] at h
          subst h
          refine ⟨?_, ?_, ?_⟩
          · intro hmem
            simp only [List.map_append, List.mem_append, List.map_cons,
              List.map_nil, List.mem_singleton] at hmem
            rcases hmem with hm | hm
            · exact hp hm
            · omega
          · intro hmem
            simp only [List.mem_append, List.mem_singleton] at hmem
            rcases hmem with hm | hm
            · exact hc hm
            · omega
          · show eid < s.nextId + 1
            omega
        · simp only [Option.some.injEq] at h
          subst h; exact ⟨hp, hc, hn⟩

lemma entityDead_lifetime (eid : Nat) (s : GameState) (delta : ℚ)
    (s' : GameState) (hd : entityDead eid s)
    (h : pig_lifetime s delta = some s') : entityDead eid s' := by
  obtain ⟨hp, hc, hn⟩ := hd
  unfold pig_lifetime at h
  split at h
  · exact Option.noConfusion h
  · simp only [Option.some.injEq] at h
    subst h
    refine ⟨?_, ?_, hn⟩
    · intro hmem
      rw [List.mem_map] at hmem
      obtain ⟨q, hq, hqid⟩ := hmem
      have hq' := List.mem_of_mem_filter hq
      rw [List.mem_map] at hq'
      obtain ⟨r, hr, rfl⟩ := hq'
      exact hp (List.mem_map.mpr ⟨r, hr, hqid⟩)
    · intro hmem
      exact hc (List.mem_of_mem_filter hmem)

lemma entityDead_frame (eid : Nat) (s : GameState) (i : FrameInput)
    (s' : GameState) (hd : entityDead eid s) (h : frame s i = some s') :
    entityDead eid s' := by
  unfold frame at h
  cases hsp : spawn_pig (character_movement_sys s i.keys i.delta) i.keys with
  | none => rw [hsp] at h; exact Option.noConfusion h
  | some s2 =>
    rw [hsp] at h
    simp only [Option.some_bind] at h
    have hd1 : entityDead eid (character_movement_sys s i.keys i.delta) := hd
    exact entityDead_lifetime eid s2 i.delta s'
      (entityDead_spawn eid _ i.keys s2 hd1 hsp) h

lemma entityDead_runFrames (eid : Nat) (inputs : List FrameInput) :
    ∀ s s' : GameState, entityDead eid s → runFrames s inputs = some s' →
      entityDead eid s' := by
  induction inputs with
  | nil =>
    intro s s' hd h
    simp only [runFrames, Option.some.injEq] at h
    subst h; exact hd
  | cons i rest ih =>
    intro s s' hd h
    unfold runFrames at h
    cases hf : frame s i with
    | none => rw [hf] at h; exact Option.noConfusion h
    | some s2 =>
      rw [hf] at h
      simp only [Option.some_bind] at h
      exact ih s2 s' (entityDead_frame eid s i s2 hd hf) h

lemma expired_not_in_children (s : GameState) (delta : ℚ) (p : Pig)
    (hmem : p ∈ s.pigs) (hfin : (p.tick delta).lifetime.finished = true) :
    p.id ∉ s.children.filter (fun cid =>
      !(((s.pigs.map (fun q => q.tick delta)).filter
        (fun q => q.lifetime.finished)).any (fun q => q.id == cid))) := by
  intro hmemc
  have hpred := (List.mem_filter.mp hmemc).2
  have hexpmem : p.tick delta ∈ (s.pigs.map (fun q => q.tick delta)).filter
      (fun q => q.lifetime.finished) :=
    List.mem_filter.mpr ⟨List.mem_map_of_mem _ hmem, hfin⟩
  have hany : ((s.pigs.map (fun q => q.tick delta)).filter
      (fun q => q.lifetime.finished)).any (fun q => q.id == p.id) = true :=
    List.any_eq_true.mpr ⟨p.tick delta, hexpmem, by simp [Pig.tick]⟩
  rw [hany] at hpred
  simp at hpred

/-- C4: when a pig expires on a sweep, the sweep's resulting world no longer
references its id in the container's membership list nor among the live
pigs, and no sequence of subsequent frames that completes normally ever lets
that id reappear among the pigs or the membership list — so no later sweep
processes it again. -/
theorem expired_pig_never_referenced_again (s : GameState) (delta : ℚ)
    (p : Pig)
    (hparent : s.parentExists = true)
    (hmem : p ∈ s.pigs)
    (hnf : p.lifetime.finished = false)
    (hnodup : (s.pigs.map Pig.id).Nodup)
    (hbelow : ∀ q ∈ s.pigs, q.id < s.nextId)
    (hexp : p.lifetime.duration ≤ p.lifetime.elapsed + delta) :
    ∃ s', pig_lifetime s delta = some s' ∧
      p.id ∉ s'.children ∧
      p.id ∉ s'.pigs.map Pig.id ∧
      ∀ inputs : List FrameInput, ∀ s'' : GameState,
        runFrames s' inputs = some s'' →
        p.id ∉ s''.pigs.map Pig.id ∧ p.id ∉ s''.children := by
  have hfin := tick_finished_of_expired p delta hnf hexp
  refine ⟨{ s with
      money := s.money + 20 *
        (((s.pigs.map (fun q => q.tick delta)).filter
          (fun q => q.lifetime.finished)).length : ℚ),
      pigs := (s.pigs.map (fun q => q.tick delta)).filter
        (fun q => !q.lifetime.finished),
      children := s.children.filter (fun cid =>
        !(((s.pigs.map (fun q => q.tick delta)).filter
          (fun q => q.lifetime.finished)).any (fun q => q.id == cid))) },
    ?_, ?_, ?_, ?_⟩
  · simp [pig_lifetime, hparent]
  · exact expired_not_in_children s delta p hmem hfin
  · exact expired_not_in_survivors s delta p hmem hnodup hfin
  · intro inputs s'' hrun
    have hdead0 : entityDead p.id
        { s with
          money := s.money + 20 *
            (((s.pigs.map (fun q => q.tick delta)).filter
              (fun q => q.lifetime.finished)).length : ℚ),
          pigs := (s.pigs.map (fun q => q.tick delta)).filter
            (fun q => !q.lifetime.finished),
          children := s.children.filter (fun cid =>
            !(((s.pigs.map (fun q => q.tick delta)).filter
              (fun q => q.lifetime.finished)).any (fun q => q.id == cid))) } :=
      ⟨expired_not_in_survivors s delta p hmem hnodup hfin,
       expired_not_in_children s delta p hmem hfin,
       hbelow p hmem⟩
    have hdead := entityDead_runFrames p.id inputs _ s'' hdead0 hrun
    exact ⟨hdead.1, hdead.2.1⟩

/-- C4 witness: the pig of the one-pig world expires at delta 1 and its id
is gone for good, e.g. across one further (empty-keyboard) frame. -/
theorem expired_pig_never_referenced_again_witness :
    ∃ s', pig_lifetime demoState 1 = some s' ∧
      demoPig.id ∉ s'.children ∧
      demoPig.id ∉ s'.pigs.map Pig.id ∧
      ∀ inputs : List FrameInput, ∀ s'' : GameState,
        runFrames s' inputs = some s'' →
        demoPig.id ∉ s''.pigs.map Pig.id ∧ demoPig.id ∉ s''.children :=
  expired_pig_never_referenced_again demoState 1 demoPig rfl
    (by simp [demoState]) rfl (by simp [demoState, demoPig])
    (by simp [demoState, demoPig]) (by norm_num [demoPig, Timer.from_seconds])
